import Mathlib

/-!
Shallow embedding of the joplin-smart-search core (src-tauri/src): the shared
application state, the search command, the delta-update and full-indexing
pipelines, the file watcher loop, id validation, and embedding normalization.

External effects (SQLite reads, ONNX model inference, the HNSW index of the
ruvector-core crate, the filesystem, clocks) are passed in explicitly as
environment records, one field per call site in the source; every function of
the repository itself is translated directly from the Rust code.

Scores and progress fractions are Rust f32 values; they are modelled as exact
rationals.  Timestamps (Unix ms, i64) are modelled as Int.
-/

namespace JoplinSmartSearch

/-- Embeddings (f32 vectors) are modelled as lists of rationals. -/
abbrev Emb := List ℚ

/-- types.rs: Note — a row of the Joplin notes table. -/
structure Note where
  id : String
  title : String
  body : String
  updated_time : Int
  deriving Repr, DecidableEq

/-- types.rs: NoteMetadata — body-less projection kept in the cache. -/
structure NoteMetadata where
  id : String
  title : String
  updated_time : Int
  deriving Repr, DecidableEq

/-- types.rs: SearchResult. -/
structure SearchResult where
  note : NoteMetadata
  score : ℚ
  deriving Repr, DecidableEq

/-- types.rs: IndexStatus. -/
structure IndexStatus where
  total_notes : Nat
  indexed_notes : Nat
  is_ready : Bool
  is_downloading_model : Bool
  download_progress : ℚ
  error : Option String
  deriving Repr, DecidableEq

/-- index.rs: IndexResult — (note_id, similarity score) returned by
SearchIndex::search. -/
structure IndexResult where
  note_id : String
  score : ℚ
  deriving Repr, DecidableEq

/-!
Association-list model of Rust HashMap String → NoteMetadata: insert puts the
new binding in front after erasing any old binding for the same key, so lookup
of the first matching key agrees with HashMap semantics (last insert wins).
HashSet String is modelled as a duplicate-free list.
-/

/-- HashMap::get on the association-list model. -/
def lookupA (m : List (String × NoteMetadata)) (k : String) : Option NoteMetadata :=
  (m.find? (fun p => p.1 = k)).map (·.2)

/-- HashMap::remove on the association-list model. -/
def removeA (m : List (String × NoteMetadata)) (k : String) : List (String × NoteMetadata) :=
  m.filter (fun p => ¬ p.1 = k)

/-- HashMap::insert on the association-list model (overwrites an old binding). -/
def insertA (m : List (String × NoteMetadata)) (k : String) (v : NoteMetadata) :
    List (String × NoteMetadata) :=
  (k, v) :: removeA m k

/-- HashSet::insert on the list model. -/
def insertS (s : List String) (x : String) : List String :=
  if x ∈ s then s else x :: s

/-- HashSet::remove on the list model. -/
def removeS (s : List String) (x : String) : List String :=
  s.filter (fun y => ¬ y = x)

/-- Decidable equality for Except values, used to evaluate outcomes on
concrete inputs. -/
instance {e a : Type} [DecidableEq e] [DecidableEq a] : DecidableEq (Except e a) := fun x y =>
  match x, y with
  | Except.error u, Except.error v =>
    if h : u = v then isTrue (by rw [h]) else isFalse (fun he => h (by injection he))
  | Except.ok u, Except.ok v =>
    if h : u = v then isTrue (by rw [h]) else isFalse (fun he => h (by injection he))
  | Except.error _, Except.ok _ => isFalse (fun he => Except.noConfusion he)
  | Except.ok _, Except.error _ => isFalse (fun he => Except.noConfusion he)

/-- Well-formedness of the note cache: every binding's stored metadata carries
the key as its id.  Every insertion the source performs has this shape. -/
def WfCache (m : List (String × NoteMetadata)) : Prop :=
  ∀ p ∈ m, p.2.id = p.1

instance (m : List (String × NoteMetadata)) : Decidable (WfCache m) := by
  unfold WfCache
  infer_instance

/-!
commands.rs: is_valid_joplin_id.  Rust `id.len()` is the UTF-8 byte length and
`id.bytes()` iterates UTF-8 bytes, so the check is modelled on the UTF-8
encoding of the string.
-/

/-- UTF-8 bytes of a string (what Rust str::bytes iterates). -/
def utf8Bytes (s : String) : List UInt8 :=
  s.data.flatMap String.utf8EncodeChar

/-- Rust byte-range check `matches!(b, b'0'..=b'9' | b'a'..=b'f')`. -/
def isHexByte (b : UInt8) : Bool :=
  decide ((48 ≤ b ∧ b ≤ 57) ∨ (97 ≤ b ∧ b ≤ 102))

/-- commands.rs lines 527-529: `id.len() == 32 && id.bytes().all(hex)`. -/
def is_valid_joplin_id (id : String) : Bool :=
  (utf8Bytes id).length == 32 && (utf8Bytes id).all isHexByte

/-- commands.rs: open_in_joplin.  The call to open::that_detached is external;
its outcome is the `openResult` argument. -/
def open_in_joplin (note_id : String) (openResult : Except String Unit) :
    Except String Unit :=
  if ¬ is_valid_joplin_id note_id then Except.error "invalid_note_id"
  else openResult

/-!
lib.rs: AppState, the shared coordinator state.  `embedding_pipeline` is an
Option<Arc<EmbeddingPipeline>> handle; only its presence matters to control
flow, so it is a Bool.  `search_index` is the Option<Arc<RwLock<SearchIndex>>>;
the HNSW structure of the external ruvector-core crate is modelled by its
stored (id, embedding) entries.  `last_full_rebuild_ts` is an Instant (ms).
-/

/-- Shared application state guarded by the coarse lock. -/
structure AppState where
  db_path : Option String
  pipeline_loaded : Bool
  search_index : Option (List (String × Emb))
  note_cache : List (String × NoteMetadata)
  last_scan_timestamp : Int
  deleted_note_ids : List String
  last_full_rebuild_ts : Int
  is_indexing : Bool
  is_pipeline_loading : Bool
  is_delta_updating : Bool
  index_status : IndexStatus

/-!
commands.rs: search_notes (lines 41-84).
-/

/-- commands.rs line 66: `const MIN_SCORE: f32 = 0.30`. -/
def MIN_SCORE : ℚ := mkRat 30 100

/-- The stateful `seen_ids.insert` filter of search_notes: keep a result only
if its note id has not been seen before (first, i.e. highest-scoring, wins). -/
def dedupByNoteId (seen : List String) : List SearchResult → List SearchResult
  | [] => []
  | r :: rs =>
      if r.note.id ∈ seen then dedupByNoteId seen rs
      else r :: dedupByNoteId (r.note.id :: seen) rs

/-- commands.rs lines 69-81: the result pipeline of search_notes — tombstone
filter, cache join, similarity floor, dedup by note id. -/
def searchPostprocess (hits : List IndexResult) (tombstones : List String)
    (cache : List (String × NoteMetadata)) : List SearchResult :=
  dedupByNoteId []
    ((((hits.filter (fun hit => ¬ hit.note_id ∈ tombstones)).filterMap
        (fun hit => (lookupA cache hit.note_id).map
          (fun meta => SearchResult.mk meta hit.score))).filter
      (fun r => MIN_SCORE ≤ r.score)))

/-- Environment of one search_notes call: the outcome of
pipeline.embed_one(query) and of index.search(query_embedding, 25), both
external calls (ONNX inference and the ruvector HNSW search). -/
structure SearchEnv where
  embed_result : Except String Emb
  search_result : Except String (List IndexResult)

/-- Outcome of a search_notes call: the returned value, the state it leaves
behind, and how many embedding-inference / index-search calls it made. -/
structure SearchOutcome where
  result : Except String (List SearchResult)
  state : AppState
  embed_calls : Nat
  index_search_calls : Nat

/-- commands.rs lines 41-84: search_notes.  Checks is_ready, snapshots the
pipeline handle, index handle, cache and tombstones, then embeds the query,
searches the index, and post-processes the hits.  It never mutates state. -/
def search_notes (s : AppState) (env : SearchEnv) : SearchOutcome :=
  if ¬ s.index_status.is_ready then
    ⟨Except.error "index_not_ready", s, 0, 0⟩
  else if ¬ s.pipeline_loaded then
    ⟨Except.error "model_not_loaded", s, 0, 0⟩
  else
    match s.search_index with
    | none => ⟨Except.error "index_not_ready", s, 0, 0⟩
    | some _ =>
      match env.embed_result with
      | Except.error e => ⟨Except.error e, s, 1, 0⟩
      | Except.ok _ =>
        match env.search_result with
        | Except.error e => ⟨Except.error e, s, 1, 1⟩
        | Except.ok hits =>
          ⟨Except.ok (searchPostprocess hits s.deleted_note_ids s.note_cache),
            s, 1, 1⟩

/-!
commands.rs: run_delta_update / run_delta_update_inner (lines 353-486).
-/

/-- Environment of one delta update: results of the SQLite calls and of the
batch embedding.  `embed` maps the text batch to Some embeddings or None on
inference failure (`embed_batch(&texts).ok()`-style usage at the call site is
`if let Ok`). -/
structure DeltaEnv where
  db_open_ok : Bool
  has_changes : Except Unit Bool
  deleted_ids : List String
  changed : List Note
  embed : List String → Option (List Emb)
  now : Int

/-- commands.rs line 295 / 415: the text embedded for a note is
`format!("{}\n\n{}", n.title, n.body)`. -/
def noteText (n : Note) : String :=
  n.title ++ "\n\n" ++ n.body

/-- NoteMetadata built from a note, as every cache insertion does. -/
def metaOf (n : Note) : NoteMetadata :=
  ⟨n.id, n.title, n.updated_time⟩

/-- Loop body of step 3 of the delta update (commands.rs lines 395-398):
tombstone one deleted id and drop it from the cache. -/
def tombstoneOne (st : AppState) (id : String) : AppState :=
  { st with
    deleted_note_ids := insertS st.deleted_note_ids id
    note_cache := removeA st.note_cache id }

/-- Loop body of step 4 of the delta update (commands.rs lines 448-455):
un-tombstone one changed note and upsert its metadata. -/
def upsertOne (st : AppState) (n : Note) : AppState :=
  { st with
    deleted_note_ids := removeS st.deleted_note_ids n.id
    note_cache := insertA st.note_cache n.id (metaOf n) }

/-- Cache insertion for one note, as both indexing paths perform it. -/
def cacheUpsert (c : List (String × NoteMetadata)) (n : Note) :
    List (String × NoteMetadata) :=
  insertA c n.id (metaOf n)

/-- Running maximum of updated_time (commands.rs line 316). -/
def maxTsStep (m : Int) (n : Note) : Int :=
  max m n.updated_time

/-- Step 3 of the delta update (commands.rs lines 389-399): tombstone every
deleted id and drop it from the cache (the is_empty guard of the source only
skips an empty loop). -/
def deltaTombstones (s : AppState) (env : DeltaEnv) : AppState :=
  env.deleted_ids.foldl tombstoneOne s

/-- commands.rs lines 370-486: run_delta_update_inner.  The scheduled
background full rebuild of step 5 is a spawned task, not a state change of
this function, and is omitted. -/
def run_delta_update_inner (s : AppState) (env : DeltaEnv) : AppState :=
  if ¬ env.db_open_ok then s
  else
    match env.has_changes with
    | Except.error _ => s
    | Except.ok false => s
    | Except.ok true =>
      -- step 4: embed and insert new/edited notes (deltaTombstones is the
      -- state after step 3)
      if env.changed.isEmpty then deltaTombstones s env
      else if ¬ (deltaTombstones s env).pipeline_loaded then deltaTombstones s env
      else
        match env.embed (env.changed.map noteText) with
        | none => deltaTombstones s env
        | some embs =>
          let s1 := deltaTombstones s env
          let entries :=
            ((env.changed.zip embs).filter
              (fun p => is_valid_joplin_id p.1.id)).map
              (fun p => (p.1.id, p.2))
          let s2 := { s1 with search_index := s1.search_index.map (· ++ entries) }
          let maxTs := (env.changed.map (·.updated_time)).max?.getD 0
          let s3 := env.changed.foldl upsertOne s2
          -- subtract 1ms from the boundary (saturating_sub on i64, which only
          -- differs from plain subtraction at i64::MIN)
          { s3 with
            last_scan_timestamp := max s3.last_scan_timestamp (maxTs - 1)
            index_status :=
              { s3.index_status with
                indexed_notes := s3.note_cache.length
                total_notes := s3.note_cache.length } }

/-- commands.rs lines 353-368: run_delta_update — the guard wrapper.  If a
delta update or a full rebuild is in flight the call returns untouched state;
otherwise it runs the inner pass with is_delta_updating set, clearing it
afterwards. -/
def run_delta_update (s : AppState) (env : DeltaEnv) : AppState :=
  if s.is_delta_updating || s.is_indexing then s
  else
    let s1 := run_delta_update_inner { s with is_delta_updating := true } env
    { s1 with is_delta_updating := false }

/-!
commands.rs: run_full_indexing / run_full_indexing_inner (lines 157-349) and
ensure_pipeline_loaded (lines 490-524).
-/

/-- Environment of one full indexing pass.  `snapshot` is Some when index.bin
exists and SearchIndex::load succeeds; `db_read_snapshot` is the combined
open_joplin_db + get_all_notes outcome inside the snapshot branch and
`db_read_full` the one at step 4; `pipeline_load_ok` is the
EmbeddingPipeline::new outcome; `index_new_ok` the SearchIndex::new outcome;
`embed` the embed_batch outcome per text batch; `now` is Instant::now. -/
structure FullEnv where
  snapshot : Option (List (String × Emb))
  db_read_snapshot : Option (List Note)
  pipeline_load_ok : Bool
  db_err : String
  db_read_full : Option (List Note)
  index_new_ok : Bool
  idx_err : String
  embed : List String → Option (List Emb)
  now : Int

/-- commands.rs lines 490-524: ensure_pipeline_loaded.  Returns immediately if
the pipeline is present or a load is already in flight; otherwise loads it,
recording an error on failure.  The is_pipeline_loading flag is set and then
cleared within the call, so it nets out unchanged. -/
def ensure_pipeline_loaded (s : AppState) (load_ok : Bool) : AppState :=
  if s.pipeline_loaded || s.is_pipeline_loading then s
  else if load_ok then { s with pipeline_loaded := true }
  else
    { s with
      index_status :=
        { s.index_status with error := some "Failed to load embedding model" } }

/-- notes.chunks(64) of the batch loop (commands.rs line 291). -/
def chunks64 : List Note → List (List Note)
  | [] => []
  | x :: xs => (x :: xs).take 64 :: chunks64 ((x :: xs).drop 64)
termination_by l => l.length
decreasing_by
  simp [List.length_drop, List.length_cons]
  omega

/-- Accumulator of the batch loop of the full build (step 5): index entries
added so far, the note cache, the running max of updated_time and the count of
indexed notes. -/
structure BuildAcc where
  index_entries : List (String × Emb)
  cache : List (String × NoteMetadata)
  max_ts : Int
  indexed : Nat

/-- One iteration of the batch loop (commands.rs lines 291-330): embed the
chunk (only if the pipeline handle is present), insert valid-id entries into
the index (add_batch, whose error is discarded), and fold every chunk note
into the cache and the max timestamp. -/
def processChunk (pipeline_loaded : Bool) (embed : List String → Option (List Emb))
    (acc : BuildAcc) (chunk : List Note) : BuildAcc :=
  let texts := chunk.map noteText
  let embOpt := if pipeline_loaded then embed texts else none
  let entries :=
    match embOpt with
    | some embs =>
        ((chunk.zip embs).filter (fun p => is_valid_joplin_id p.1.id)).map
          (fun p => (p.1.id, p.2))
    | none => []
  { index_entries := acc.index_entries ++ entries
    cache := chunk.foldl cacheUpsert acc.cache
    max_ts := chunk.foldl maxTsStep acc.max_ts
    indexed := acc.indexed + chunk.length }

/-- The whole batch loop over chunks of 64. -/
def buildLoop (pipeline_loaded : Bool) (embed : List String → Option (List Emb))
    (notes : List Note) : BuildAcc :=
  (chunks64 notes).foldl (processChunk pipeline_loaded embed) ⟨[], [], 0, 0⟩

/-- commands.rs lines 187-232: the snapshot path of run_full_indexing_inner —
reuse the persisted index, rebuild the cache from all live notes, recompute
last_scan_timestamp as the plain max updated_time, clear tombstones, then load
the model and mark ready if it is present. -/
def snapshotPath (s : AppState) (env : FullEnv) (loaded : List (String × Emb))
    (notes : List Note) : AppState :=
  let total := notes.length
  let maxTs := ((notes.map (·.updated_time)).max?).getD 0
  let cache := notes.foldl cacheUpsert []
  let s1 :=
    { s with
      search_index := some loaded
      note_cache := cache
      last_scan_timestamp := maxTs
      deleted_note_ids := []
      last_full_rebuild_ts := env.now
      index_status :=
        { total_notes := total
          indexed_notes := total
          is_ready := false
          is_downloading_model := true
          download_progress := 1
          error := none } }
  let s2 := ensure_pipeline_loaded s1 env.pipeline_load_ok
  let s3 :=
    { s2 with
      index_status := { s2.index_status with is_downloading_model := false } }
  -- "if s.embedding_pipeline.is_some() { s.index_status.is_ready = true; }"
  { s3 with
    index_status :=
      { s3.index_status with
        is_ready := if s3.pipeline_loaded then true else s3.index_status.is_ready } }

/-- commands.rs lines 234-349: the full-build path (steps 3-7) of
run_full_indexing_inner. -/
def fullBuildPath (s : AppState) (env : FullEnv) : AppState :=
  -- step 3: init model
  let s1 :=
    { s with
      index_status := { s.index_status with is_downloading_model := true } }
  let s2 := ensure_pipeline_loaded s1 env.pipeline_load_ok
  let s3 :=
    { s2 with
      index_status := { s2.index_status with is_downloading_model := false } }
  -- step 4: read all notes
  match env.db_read_full with
  | none =>
    { s3 with
      index_status :=
        { s3.index_status with
          error := some ("Failed to read database: " ++ env.db_err) } }
  | some notes =>
    let total := notes.length
    let s4 :=
      { s3 with
        index_status := { s3.index_status with total_notes := total } }
    -- step 5: create the index, embed in batches
    if ¬ env.index_new_ok then
      { s4 with
        index_status :=
          { s4.index_status with
            error := some ("Failed to create index: " ++ env.idx_err) } }
    else
      let acc := buildLoop s4.pipeline_loaded env.embed notes
      -- the loop writes indexed_notes and download_progress after each chunk;
      -- only the value after its last iteration is observable here
      let s5 :=
        if (chunks64 notes).isEmpty then s4
        else
          { s4 with
            index_status :=
              { s4.index_status with
                indexed_notes := acc.indexed
                download_progress := (acc.indexed : ℚ) / (max total 1 : ℚ) } }
      -- step 6 persists the index to disk (no state change); step 7:
      { s5 with
        search_index := some acc.index_entries
        note_cache := acc.cache
        last_scan_timestamp := acc.max_ts
        deleted_note_ids := []
        last_full_rebuild_ts := env.now
        index_status :=
          { s5.index_status with
            is_ready := if s5.pipeline_loaded then true else s5.index_status.is_ready
            download_progress := 1
            error := none } }

/-- commands.rs lines 174-349: run_full_indexing_inner.  Without a configured
db_path it returns immediately; with a loadable snapshot and a successful read
it takes the snapshot path; otherwise it falls through to the full build. -/
def run_full_indexing_inner (s : AppState) (env : FullEnv) : AppState :=
  match s.db_path with
  | none => s
  | some _ =>
    match env.snapshot, env.db_read_snapshot with
    | some loaded, some notes => snapshotPath s env loaded notes
    | _, _ => fullBuildPath s env

/-- commands.rs lines 157-172: run_full_indexing — the guard wrapper.  If a
rebuild is in flight the call returns untouched state; otherwise it runs the
inner pass with is_indexing set, clearing it afterwards. -/
def run_full_indexing (s : AppState) (env : FullEnv) : AppState :=
  if s.is_indexing then s
  else
    let s1 := run_full_indexing_inner { s with is_indexing := true } env
    { s1 with is_indexing := false }

/-!
watcher.rs: the polling file watcher (lines 1-75).  One `WTick` is one
iteration of watch_loop after the 10s sleep: the wall clock, whether a db_path
is configured, and the mtimes of the main database file and of its WAL file.
Times are ms.
-/

/-- watcher.rs line 11: DEBOUNCE = 5 seconds. -/
def DEBOUNCE_MS : Int := 5000

/-- Local state of watch_loop: last_modified and pending_since. -/
structure WState where
  last : Option Int
  pending : Option Int
  deriving Repr, DecidableEq

/-- Observations of one loop iteration. -/
structure WTick where
  now : Int
  dbConfigured : Bool
  mtimeMain : Option Int
  mtimeWal : Option Int
  deriving Repr, DecidableEq

/-- watcher.rs lines 45-48: combine the two mtimes, taking the max when both
are present. -/
def combinedMtime (tk : WTick) : Option Int :=
  match tk.mtimeMain, tk.mtimeWal with
  | some a, some b => some (max a b)
  | a, b => a.or b

/-- watcher.rs lines 50-60: the `changed` computation together with the new
last_modified value.  First observation records the mtime without treating it
as a change. -/
def watchChanged (st : WState) (tk : WTick) : Bool × Option Int :=
  match st.last, combinedMtime tk with
  | none, some t => (false, some t)
  | some prev, some cur =>
      if cur ≠ prev then (true, some cur) else (false, some prev)
  | l, _ => (false, l)

/-- One iteration of watch_loop (lines 26-73): poll, detect a change,
(re)start the debounce timer, and fire a delta update once the quiet period
has elapsed.  Returns the new state and whether run_delta_update was called.
`since.elapsed().unwrap_or_default()` is now - since, or a zero duration when
the clock moved backwards. -/
def watchStep (st : WState) (tk : WTick) : WState × Bool :=
  if ¬ tk.dbConfigured then (st, false)
  else
    let (changed, last1) := watchChanged st tk
    let pending1 := if changed then some tk.now else st.pending
    match pending1 with
    | some since =>
        if DEBOUNCE_MS ≤ max (tk.now - since) 0 then (⟨last1, none⟩, true)
        else (⟨last1, pending1⟩, false)
    | none => (⟨last1, none⟩, false)

/-- watch_loop over a list of ticks, collecting the per-tick fire flags. -/
def watchRun : WState → List WTick → WState × List Bool
  | st, [] => (st, [])
  | st, tk :: tks =>
      let (st1, f) := watchStep st tk
      let (st2, fs) := watchRun st1 tks
      (st2, f :: fs)

/-- watcher.rs lines 22-23: the initial local state of watch_loop. -/
def initWState : WState := ⟨none, none⟩

/-!
embeddings.rs: normalize (lines 53-59) and the embed wrappers (lines 31-47).
The raw model outputs are f32 vectors from ONNX inference; the normalization
arithmetic is modelled over the reals.
-/

/-- embeddings.rs line 54: the L2 norm, sqrt of the sum of squares. -/
noncomputable def l2norm (v : List ℝ) : ℝ :=
  Real.sqrt ((v.map (fun x => x * x)).sum)

/-- embeddings.rs lines 53-59: divide by the norm only when it exceeds 1e-10,
otherwise return the vector unchanged. -/
noncomputable def normalize (v : List ℝ) : List ℝ :=
  if l2norm v > 1 / 10 ^ 10 then v.map (fun x => x / l2norm v) else v

/-- embeddings.rs lines 31-36: embed_one — run the model on one text and
normalize.  `raw` is the model output for a given text. -/
noncomputable def embed_one (raw : String → List ℝ) (text : String) : List ℝ :=
  normalize (raw text)

/-- embeddings.rs lines 40-47: embed_batch — run the model on every text and
normalize each output, in order. -/
noncomputable def embed_batch (raw : String → List ℝ) (texts : List String) :
    List (List ℝ) :=
  texts.map (fun t => normalize (raw t))

/-!
Concrete states and environments used by witnesses and counterexamples.
-/

/-- lib.rs: AppState::default — the initial shared state. -/
def defaultAppState : AppState :=
  { db_path := none
    pipeline_loaded := false
    search_index := none
    note_cache := []
    last_scan_timestamp := 0
    deleted_note_ids := []
    last_full_rebuild_ts := 0
    is_indexing := false
    is_pipeline_loading := false
    is_delta_updating := false
    index_status :=
      { total_notes := 0
        indexed_notes := 0
        is_ready := false
        is_downloading_model := false
        download_progress := 0
        error := none } }

/-- Number of results a search_notes outcome carries (0 on error). -/
def resultCount (o : SearchOutcome) : Nat :=
  match o.result with
  | Except.ok rs => rs.length
  | Except.error _ => 0

/-- A ready state whose cache holds eleven notes, for claim C3. -/
def elevenState : AppState :=
  { defaultAppState with
    db_path := some "db"
    pipeline_loaded := true
    search_index := some []
    note_cache :=
      (List.range 11).map (fun i => (toString i, ⟨toString i, "t", 0⟩))
    index_status :=
      { defaultAppState.index_status with
        is_ready := true
        total_notes := 11
        indexed_notes := 11 } }

/-- Eleven distinct well-scored hits, as the HNSW search (asked for
DEFAULT_TOP_K = 25 candidates) may well return. -/
def elevenHits : List IndexResult :=
  (List.range 11).map (fun i => ⟨toString i, mkRat 95 100⟩)

/-- A ready state with one cached note "a", for the C1 witness. -/
def c1state : AppState :=
  { defaultAppState with
    db_path := some "db"
    pipeline_loaded := true
    search_index := some []
    note_cache := [("a", ⟨"a", "ta", 1⟩)]
    index_status := { defaultAppState.index_status with is_ready := true } }

/-- A delta environment that reports note "b" deleted, for the C1 witness. -/
def c1denv : DeltaEnv :=
  ⟨true, Except.ok true, ["b"], [], fun _ => none, 0⟩

/-- A search environment whose index hits include the tombstoned id "b", for
the C1 witness. -/
def c1senv : SearchEnv :=
  ⟨Except.ok [], Except.ok [⟨"b", mkRat 9 10⟩, ⟨"a", mkRat 9 10⟩]⟩

/-- A delta environment reporting note "x" changed, for claim C6. -/
def c6env : DeltaEnv :=
  ⟨true, Except.ok true, [], [⟨"x", "t", "b", 10⟩], fun _ => some [[mkRat 1 1]], 0⟩

/-- A state with "x" tombstoned and no pipeline loaded (C6 counterexample). -/
def c6cstate : AppState :=
  { defaultAppState with db_path := some "db", deleted_note_ids := ["x"] }

/-- The same state with the pipeline loaded (C6 witness). -/
def c6wstate : AppState :=
  { c6cstate with pipeline_loaded := true, search_index := some [] }

/-- A fresh state with a configured db path, for claim C4. -/
def c4state : AppState :=
  { defaultAppState with db_path := some "db" }

/-- A full-build environment reading one note with updated_time 100 and a
failing model load-free path (no snapshot, index creation succeeds). -/
def c4env : FullEnv :=
  ⟨none, none, true, "", some [⟨"n", "t", "b", 100⟩], true, "", fun _ => none, 7⟩

/-- A state holding a working prior index, cache, tombstone and timestamp,
for claim C2. -/
def c2state : AppState :=
  { defaultAppState with
    db_path := some "db"
    search_index := some [("aaaa", [mkRat 1 1])]
    note_cache := [("aaaa", ⟨"aaaa", "t", 50⟩)]
    deleted_note_ids := ["dddd"]
    last_scan_timestamp := 999 }

/-- A full-build environment whose model load fails while the database read
succeeds (C2 counterexample). -/
def c2env : FullEnv :=
  ⟨none, none, false, "", some [⟨"n", "t", "b", 100⟩], true, "", fun _ => none, 7⟩

/-- A full-build environment whose database read fails (C2 witness). -/
def c2wenv : FullEnv :=
  ⟨none, none, true, "boom", none, true, "", fun _ => none, 7⟩

/-!
Helper lemmas for identifier validation (claim C9): bridging UTF-8 bytes and
characters.
-/

/-- The spec-side character predicate: a lowercase hexadecimal digit. -/
def isHexChar (c : Char) : Prop := ('0' ≤ c ∧ c ≤ '9') ∨ ('a' ≤ c ∧ c ≤ 'f')

instance (c : Char) : Decidable (isHexChar c) := by
  unfold isHexChar
  infer_instance

lemma hexByte_toNat_le {b : UInt8} (h : isHexByte b = true) : b.toNat ≤ 102 := by
  simp [isHexByte] at h
  rcases h with ⟨h1, h2⟩ | ⟨h1, h2⟩ <;>
    simp [UInt8.le_def, BitVec.le_def, UInt8.toNat, UInt8.size] at h2 ⊢ <;> omega

lemma le_toNat_or (a hi : UInt8) : hi.toNat ≤ (a ||| hi).toNat := by
  have h2 : (a ||| hi).toNat = (a.toBitVec ||| hi.toBitVec).toNat := rfl
  rw [h2, BitVec.toNat_or]
  exact Nat.le_of_testBit (fun i hi2 => by
    simp only [Nat.testBit_or]
    have h3 : hi.toBitVec.toNat.testBit i = true := by simpa [UInt8.toNat] using hi2
    simp [h3])

lemma char_le_iff (d c : Char) : (d ≤ c) ↔ d.val.toNat ≤ c.val.toNat := by
  constructor
  · intro h
    have h2 : d.val ≤ c.val := h
    simpa [UInt32.le_def, BitVec.le_def, UInt32.toNat] using h2
  · intro h
    show d.val ≤ c.val
    simpa [UInt32.le_def, BitVec.le_def, UInt32.toNat] using h

lemma toUInt8_toNat_of_le {v : UInt32} (h : v.toNat ≤ 127) : v.toUInt8.toNat = v.toNat := by
  simp [UInt32.toUInt8, Nat.toUInt8, UInt8.ofNat, UInt8.toNat, UInt32.toNat,
    BitVec.toNat_ofNat] at *
  omega

lemma hexChar_byte {c : Char} (hle : c.val.toNat ≤ 127) :
    isHexByte c.val.toUInt8 = true ↔ isHexChar c := by
  have hb := toUInt8_toNat_of_le hle
  simp only [UInt8.toNat, UInt32.toNat] at hb
  simp only [isHexByte, isHexChar, char_le_iff, UInt8.le_def, BitVec.le_def,
    decide_eq_true_eq, UInt32.toNat]
  constructor <;> intro h <;> rcases h with ⟨h1, h2⟩ | ⟨h1, h2⟩
  · left
    constructor <;> simp_all
  · right
    constructor <;> simp_all
  · left
    constructor <;> simp_all
  · right
    constructor <;> simp_all

lemma hexChar_val_le {c : Char} (h : isHexChar c) : c.val.toNat ≤ 102 := by
  rcases h with ⟨h1, h2⟩ | ⟨h1, h2⟩ <;> rw [char_le_iff] at h2 <;>
    [exact le_trans h2 (by decide); exact le_trans h2 (by decide)]

lemma le_0x7f_of_toNat {v : UInt32} (h : v.toNat ≤ 127) : v ≤ 0x7f := by
  simp [UInt32.le_def, BitVec.le_def, UInt32.toNat] at *
  omega

lemma toNat_le_of_0x7f {v : UInt32} (h : v ≤ 0x7f) : v.toNat ≤ 127 := by
  simp [UInt32.le_def, BitVec.le_def, UInt32.toNat] at *
  omega

lemma utf8EncodeChar_of_hex {c : Char} (h : isHexChar c) :
    String.utf8EncodeChar c = [c.val.toUInt8] ∧ isHexByte c.val.toUInt8 = true := by
  have hle : c.val.toNat ≤ 127 := le_trans (hexChar_val_le h) (by omega)
  have hv : c.val ≤ 0x7f := le_0x7f_of_toNat hle
  refine ⟨by simp [String.utf8EncodeChar, hv], ?_⟩
  exact (hexChar_byte hle).2 h

lemma hex_of_encode_all {c : Char}
    (h : (String.utf8EncodeChar c).all isHexByte = true) :
    isHexChar c ∧ String.utf8EncodeChar c = [c.val.toUInt8] := by
  by_cases h1 : c.val ≤ 0x7f
  · have henc : String.utf8EncodeChar c = [c.val.toUInt8] := by
      simp [String.utf8EncodeChar, h1]
    rw [henc] at h
    simp at h
    exact ⟨(hexChar_byte (toNat_le_of_0x7f h1)).1 h, henc⟩
  · exfalso
    by_cases h2 : c.val ≤ 0x7ff
    · have henc : String.utf8EncodeChar c =
        [(c.val >>> 6).toUInt8 &&& 0x1f ||| 0xc0, c.val.toUInt8 &&& 0x3f ||| 0x80] := by
        simp [String.utf8EncodeChar, h1, h2]
      rw [henc] at h
      simp at h
      have hbad := hexByte_toNat_le h.1
      have hge := le_toNat_or ((c.val >>> 6).toUInt8 &&& 0x1f) 0xc0
      have h192 : (0xc0 : UInt8).toNat = 192 := by decide
      rw [h192] at hge
      omega
    · by_cases h3 : c.val ≤ 0xffff
      · have henc : String.utf8EncodeChar c =
          [(c.val >>> 12).toUInt8 &&& 0x0f ||| 0xe0,
           (c.val >>> 6).toUInt8 &&& 0x3f ||| 0x80,
           c.val.toUInt8 &&& 0x3f ||| 0x80] := by
          simp [String.utf8EncodeChar, h1, h2, h3]
        rw [henc] at h
        simp at h
        have hbad := hexByte_toNat_le h.1
        have hge := le_toNat_or ((c.val >>> 12).toUInt8 &&& 0x0f) 0xe0
        have h224 : (0xe0 : UInt8).toNat = 224 := by decide
        rw [h224] at hge
        omega
      · have henc : String.utf8EncodeChar c =
          [(c.val >>> 18).toUInt8 &&& 0x07 ||| 0xf0,
           (c.val >>> 12).toUInt8 &&& 0x3f ||| 0x80,
           (c.val >>> 6).toUInt8 &&& 0x3f ||| 0x80,
           c.val.toUInt8 &&& 0x3f ||| 0x80] := by
          simp [String.utf8EncodeChar, h1, h2, h3]
        rw [henc] at h
        simp at h
        have hbad := hexByte_toNat_le h.1
        have hge := le_toNat_or ((c.val >>> 18).toUInt8 &&& 0x07) 0xf0
        have h240 : (0xf0 : UInt8).toNat = 240 := by decide
        rw [h240] at hge
        omega

lemma flatMap_hex_iff (cs : List Char) :
    ((cs.flatMap String.utf8EncodeChar).all isHexByte = true) ↔ ∀ c ∈ cs, isHexChar c := by
  induction cs with
  | nil => simp
  | cons c cs ih =>
    simp only [List.flatMap_cons, List.all_append, Bool.and_eq_true]
    constructor
    · intro h
      rcases h with ⟨h1, h2⟩
      intro d hd
      rcases hd with _ | hd
      · exact (hex_of_encode_all h1).1
      · exact ih.1 h2 d (by assumption)
    · intro h
      refine ⟨?_, ih.2 (fun d hd => h d (List.mem_cons_of_mem c hd))⟩
      rcases utf8EncodeChar_of_hex (h c (List.mem_cons_self c cs)) with ⟨he, hb⟩
      simp [he, hb]

lemma flatMap_hex_len (cs : List Char) (h : ∀ c ∈ cs, isHexChar c) :
    (cs.flatMap String.utf8EncodeChar).length = cs.length := by
  induction cs with
  | nil => simp
  | cons c cs ih =>
    simp only [List.flatMap_cons, List.length_append, List.length_cons]
    rw [(utf8EncodeChar_of_hex (h c (List.mem_cons_self c cs))).1,
      ih (fun d hd => h d (List.mem_cons_of_mem c hd))]
    simp
    omega

/-!
Helper lemmas for the association-list and set models.
-/

lemma mem_insertS {a x : String} {s : List String} :
    a ∈ insertS s x ↔ a = x ∨ a ∈ s := by
  unfold insertS
  by_cases h : x ∈ s
  · simp only [if_pos h]
    constructor
    · exact Or.inr
    · rintro (rfl | ha)
      · exact h
      · exact ha
  · simp [if_neg h]

lemma mem_removeS {a x : String} {s : List String} :
    a ∈ removeS s x ↔ a ∈ s ∧ a ≠ x := by
  simp [removeS, List.mem_filter]

lemma lookupA_cons_self {m : List (String × NoteMetadata)} {k : String} {v : NoteMetadata} :
    lookupA ((k, v) :: m) k = some v := by
  simp [lookupA, List.find?_cons_of_pos]

lemma lookupA_cons_ne {m : List (String × NoteMetadata)} {p : String × NoteMetadata}
    {x : String} (h : ¬ p.1 = x) :
    lookupA (p :: m) x = lookupA m x := by
  simp only [lookupA]
  rw [List.find?_cons_of_neg]
  simpa using h

lemma lookupA_insertA_self (m : List (String × NoteMetadata)) (k : String) (v : NoteMetadata) :
    lookupA (insertA m k v) k = some v := by
  simp [insertA, lookupA_cons_self]

lemma lookupA_removeA_ne {x k : String} (m : List (String × NoteMetadata)) (h : x ≠ k) :
    lookupA (removeA m k) x = lookupA m x := by
  induction m with
  | nil => rfl
  | cons p m ih =>
    by_cases hp : p.1 = k
    · rw [removeA, List.filter_cons_of_neg (by simp [hp])]
      rw [show List.filter (fun q => decide ¬ q.1 = k) m = removeA m k from rfl, ih,
        lookupA_cons_ne (show ¬ p.1 = x by rw [hp]; exact fun he => h he.symm)]
    · rw [removeA, List.filter_cons_of_pos (by simp [hp])]
      by_cases hx : p.1 = x
      · rcases p with ⟨pk, pv⟩
        simp only at hx hp
        subst hx
        rw [show ((pk, pv) :: List.filter (fun q => decide ¬ q.1 = k) m)
            = (pk, pv) :: removeA m k from rfl]
        simp [lookupA_cons_self]
      · rw [show (p :: List.filter (fun q => decide ¬ q.1 = k) m)
            = p :: removeA m k from rfl,
          lookupA_cons_ne hx, lookupA_cons_ne hx, ih]

lemma lookupA_insertA_ne {x k : String} (m : List (String × NoteMetadata)) (v : NoteMetadata)
    (h : x ≠ k) :
    lookupA (insertA m k v) x = lookupA m x := by
  rw [insertA, lookupA_cons_ne (by simpa using fun he => h he.symm)]
  exact lookupA_removeA_ne m h

lemma wf_removeA {m : List (String × NoteMetadata)} (h : WfCache m) (k : String) :
    WfCache (removeA m k) := by
  intro p hp
  exact h p (List.mem_of_mem_filter hp)

lemma wf_insertA {m : List (String × NoteMetadata)} (h : WfCache m) (k : String)
    {v : NoteMetadata} (hv : v.id = k) :
    WfCache (insertA m k v) := by
  intro p hp
  rcases hp with _ | hp
  · exact hv
  · exact wf_removeA h k p (by assumption)

lemma lookupA_wf {m : List (String × NoteMetadata)} {k : String} {v : NoteMetadata}
    (hwf : WfCache m) (h : lookupA m k = some v) : v.id = k := by
  simp only [lookupA, Option.map_eq_some'] at h
  rcases h with ⟨p, hp, hv⟩
  have h1 := List.find?_some hp
  have h2 := List.mem_of_find?_eq_some hp
  simp at h1
  rw [← hv, hwf p h2, h1]

/-!
Helper lemmas for the delta update and the search path.
-/

lemma mem_deleted_foldl_tombstone (l : List String) (s : AppState) (X : String)
    (h : X ∈ l ∨ X ∈ s.deleted_note_ids) :
    X ∈ (l.foldl tombstoneOne s).deleted_note_ids := by
  induction l generalizing s with
  | nil => simpa using h.resolve_left (by simp)
  | cons a l ih =>
    rw [List.foldl_cons]
    apply ih
    rcases h with h | h
    · rcases List.mem_cons.mp h with heq | h
      · exact Or.inr (by simp [tombstoneOne, mem_insertS, heq])
      · exact Or.inl h
    · exact Or.inr (by simp [tombstoneOne, mem_insertS, h])

lemma deleted_foldl_upsert (l : List Note) (s : AppState) (X : String)
    (hX : ¬ X ∈ l.map (·.id)) :
    X ∈ (l.foldl upsertOne s).deleted_note_ids ↔ X ∈ s.deleted_note_ids := by
  induction l generalizing s with
  | nil => simp
  | cons n l ih =>
    rw [List.foldl_cons]
    have hne : X ≠ n.id := by
      intro he
      exact hX (by simp [he])
    rw [ih _ (by intro hm; exact hX (by simp at hm ⊢; exact Or.inr hm))]
    simp [upsertOne, mem_removeS, hne]

lemma wf_foldl_tombstone (l : List String) :
    ∀ s : AppState, WfCache s.note_cache →
      WfCache ((l.foldl tombstoneOne s).note_cache) := by
  induction l with
  | nil => exact fun s h => h
  | cons a l ih =>
    intro s h
    rw [List.foldl_cons]
    exact ih _ (wf_removeA h a)

lemma wf_foldl_upsert (l : List Note) :
    ∀ s : AppState, WfCache s.note_cache →
      WfCache ((l.foldl upsertOne s).note_cache) := by
  induction l with
  | nil => exact fun s h => h
  | cons n l ih =>
    intro s h
    rw [List.foldl_cons]
    exact ih _ (wf_insertA h n.id rfl)

lemma run_delta_state (s : AppState) (env : DeltaEnv) (X : String)
    (hdb : env.db_open_ok = true)
    (hch : env.has_changes = Except.ok true)
    (hX : X ∈ env.deleted_ids)
    (hXc : ¬ X ∈ env.changed.map (·.id))
    (hwf : WfCache s.note_cache) :
    X ∈ (run_delta_update_inner s env).deleted_note_ids ∧
      WfCache (run_delta_update_inner s env).note_cache := by
  have h1mem : X ∈ (deltaTombstones s env).deleted_note_ids :=
    mem_deleted_foldl_tombstone _ _ _ (Or.inl hX)
  have h1wf : WfCache (deltaTombstones s env).note_cache :=
    wf_foldl_tombstone _ _ hwf
  unfold run_delta_update_inner
  split
  · next h => exact absurd rfl (hdb ▸ h)
  · split
    · next e heq => rw [hch] at heq; cases heq
    · next heq => rw [hch] at heq; cases heq
    · next heq =>
      repeat' split
      all_goals try exact ⟨h1mem, h1wf⟩
      exact ⟨(deleted_foldl_upsert _ _ _ hXc).mpr h1mem, wf_foldl_upsert _ _ h1wf⟩

end JoplinSmartSearch

namespace JoplinSmartSearch

lemma mem_dedupByNoteId {r : SearchResult} :
    ∀ {seen : List String} {l : List SearchResult}, r ∈ dedupByNoteId seen l → r ∈ l := by
  intro seen l
  induction l generalizing seen with
  | nil => simp [dedupByNoteId]
  | cons a l ih =>
    intro h
    rw [dedupByNoteId] at h
    split at h
    · exact List.mem_cons_of_mem a (ih h)
    · rcases List.mem_cons.mp h with heq | h2
      · exact heq ▸ List.mem_cons_self a l
      · exact List.mem_cons_of_mem a (ih h2)

lemma mem_searchPostprocess {r : SearchResult} {hits : List IndexResult}
    {tomb : List String} {cache : List (String × NoteMetadata)}
    (h : r ∈ searchPostprocess hits tomb cache) :
    ∃ hit ∈ hits, (¬ hit.note_id ∈ tomb) ∧ lookupA cache hit.note_id = some r.note := by
  unfold searchPostprocess at h
  have h1 := mem_dedupByNoteId h
  rw [List.mem_filter] at h1
  rcases List.mem_filterMap.mp h1.1 with ⟨hit, hhit, hmap⟩
  rw [List.mem_filter] at hhit
  rcases Option.map_eq_some'.1 hmap with ⟨meta, hl, hr⟩
  refine ⟨hit, hhit.1, by simpa using hhit.2, ?_⟩
  rw [hl, ← hr]

lemma search_notes_ok {s : AppState} {env : SearchEnv} {rs : List SearchResult}
    (h : (search_notes s env).result = Except.ok rs) :
    ∃ hits, env.search_result = Except.ok hits ∧
      rs = searchPostprocess hits s.deleted_note_ids s.note_cache := by
  unfold search_notes at h
  split at h
  · cases h
  · split at h
    · cases h
    · split at h
      · cases h
      · split at h
        · cases h
        · split at h
          · cases h
          · next hits heq =>
            refine ⟨hits, heq, ?_⟩
            simpa using h.symm

lemma pipeline_foldl_tombstone (l : List String) (s : AppState) :
    (l.foldl tombstoneOne s).pipeline_loaded = s.pipeline_loaded := by
  induction l generalizing s with
  | nil => rfl
  | cons a l ih => rw [List.foldl_cons, ih]; rfl

lemma lookup_foldl_upsert_ne (l : List Note) (s : AppState) (x : String)
    (hx : ¬ x ∈ l.map (·.id)) :
    lookupA (l.foldl upsertOne s).note_cache x = lookupA s.note_cache x := by
  induction l generalizing s with
  | nil => rfl
  | cons n l ih =>
    rw [List.foldl_cons]
    have hne : x ≠ n.id := fun he => hx (by simp [he])
    rw [ih _ (fun hm => hx (by simp at hm ⊢; exact Or.inr hm))]
    exact lookupA_insertA_ne _ _ hne

lemma foldl_upsert_spec (l : List Note) (s : AppState)
    (hnd : (l.map (·.id)).Nodup) :
    ∀ n ∈ l, ¬ n.id ∈ (l.foldl upsertOne s).deleted_note_ids ∧
      lookupA (l.foldl upsertOne s).note_cache n.id = some (metaOf n) := by
  induction l generalizing s with
  | nil => simp
  | cons n0 l ih =>
    intro n hn
    rw [List.map_cons, List.nodup_cons] at hnd
    rcases List.mem_cons.mp hn with heq | hmem
    · subst heq
      rw [List.foldl_cons]
      constructor
      · rw [deleted_foldl_upsert _ _ _ hnd.1]
        simp [upsertOne, mem_removeS]
      · rw [lookup_foldl_upsert_ne _ _ _ hnd.1]
        exact lookupA_insertA_self _ _ _
    · rw [List.foldl_cons]
      exact ih _ hnd.2 n hmem

/-!
Helper lemmas for timestamps and the full-build loop.
-/

lemma last_scan_foldl_tombstone (l : List String) (s : AppState) :
    (l.foldl tombstoneOne s).last_scan_timestamp = s.last_scan_timestamp := by
  induction l generalizing s with
  | nil => rfl
  | cons a l ih => rw [List.foldl_cons, ih]; rfl

lemma last_scan_foldl_upsert (l : List Note) (s : AppState) :
    (l.foldl upsertOne s).last_scan_timestamp = s.last_scan_timestamp := by
  induction l generalizing s with
  | nil => rfl
  | cons n l ih => rw [List.foldl_cons, ih]; rfl

lemma run_delta_inner_mono (s : AppState) (env : DeltaEnv) :
    s.last_scan_timestamp ≤ (run_delta_update_inner s env).last_scan_timestamp := by
  unfold run_delta_update_inner
  have hts : (deltaTombstones s env).last_scan_timestamp = s.last_scan_timestamp := by
    rw [deltaTombstones, last_scan_foldl_tombstone]
  split
  · exact le_refl _
  · split
    · exact le_refl _
    · exact le_refl _
    · split
      · rw [hts]
      · split
        · rw [hts]
        · split
          · rw [hts]
          · next embs hembs =>
            show s.last_scan_timestamp ≤
              max (env.changed.foldl upsertOne _).last_scan_timestamp _
            rw [last_scan_foldl_upsert]
            show s.last_scan_timestamp ≤ max (deltaTombstones s env).last_scan_timestamp _
            rw [hts]
            exact le_max_left _ _

lemma run_delta_mono (s : AppState) (env : DeltaEnv) :
    s.last_scan_timestamp ≤ (run_delta_update s env).last_scan_timestamp := by
  unfold run_delta_update
  split
  · exact le_refl _
  · show s.last_scan_timestamp ≤
      (run_delta_update_inner { s with is_delta_updating := true } env).last_scan_timestamp
    exact run_delta_inner_mono { s with is_delta_updating := true } env

lemma run_delta_inner_last_scan_eq (s : AppState) (env : DeltaEnv)
    (hdb : env.db_open_ok = true)
    (hch : env.has_changes = Except.ok true)
    (hne : env.changed.isEmpty = false)
    (hpl : s.pipeline_loaded = true)
    (hemb : (env.embed (env.changed.map noteText)).isSome = true) :
    (run_delta_update_inner s env).last_scan_timestamp =
      max s.last_scan_timestamp
        ((((env.changed.map (·.updated_time)).max?).getD 0) - 1) := by
  have hplt : (deltaTombstones s env).pipeline_loaded = true := by
    rw [deltaTombstones, pipeline_foldl_tombstone, hpl]
  obtain ⟨embs, hembs⟩ := Option.isSome_iff_exists.mp hemb
  simp only [run_delta_update_inner, hdb, hch, hne, hembs, hplt, Bool.not_true,
    Bool.false_eq_true, if_false, not_false_eq_true, not_true_eq_false, ite_false]
  rw [last_scan_foldl_upsert]
  show max (deltaTombstones s env).last_scan_timestamp _ = _
  rw [deltaTombstones, last_scan_foldl_tombstone]

lemma chunksFold_max_ts (pl : Bool) (e : List String → Option (List Emb)) :
    ∀ (l : List Note) (acc : BuildAcc),
      ((chunks64 l).foldl (processChunk pl e) acc).max_ts
        = l.foldl maxTsStep acc.max_ts := by
  intro l
  induction l using chunks64.induct with
  | case1 => intro acc; simp [chunks64]
  | case2 x xs ih =>
    intro acc
    rw [chunks64]
    simp only [List.foldl_cons]
    rw [ih]
    have hp : (processChunk pl e acc ((x :: xs).take 64)).max_ts
        = ((x :: xs).take 64).foldl maxTsStep acc.max_ts := rfl
    rw [hp, ← List.foldl_append, List.take_append_drop]
    rfl

lemma chunksFold_cache (pl : Bool) (e : List String → Option (List Emb)) :
    ∀ (l : List Note) (acc : BuildAcc),
      ((chunks64 l).foldl (processChunk pl e) acc).cache
        = l.foldl cacheUpsert acc.cache := by
  intro l
  induction l using chunks64.induct with
  | case1 => intro acc; simp [chunks64]
  | case2 x xs ih =>
    intro acc
    rw [chunks64]
    simp only [List.foldl_cons]
    rw [ih]
    have hp : (processChunk pl e acc ((x :: xs).take 64)).cache
        = ((x :: xs).take 64).foldl cacheUpsert acc.cache := rfl
    rw [hp, ← List.foldl_append, List.take_append_drop]
    rfl

lemma chunksFold_entries_off (e : List String → Option (List Emb)) :
    ∀ (l : List Note) (acc : BuildAcc),
      ((chunks64 l).foldl (processChunk false e) acc).index_entries
        = acc.index_entries := by
  intro l
  induction l using chunks64.induct with
  | case1 => intro acc; simp [chunks64]
  | case2 x xs ih =>
    intro acc
    rw [chunks64]
    simp only [List.foldl_cons]
    rw [ih]
    show (acc.index_entries ++ _) = acc.index_entries
    simp [processChunk]

lemma buildLoop_max_ts (pl : Bool) (e : List String → Option (List Emb)) (notes : List Note) :
    (buildLoop pl e notes).max_ts = notes.foldl maxTsStep 0 :=
  chunksFold_max_ts pl e notes ⟨[], [], 0, 0⟩

lemma buildLoop_cache (pl : Bool) (e : List String → Option (List Emb)) (notes : List Note) :
    (buildLoop pl e notes).cache = notes.foldl cacheUpsert [] :=
  chunksFold_cache pl e notes ⟨[], [], 0, 0⟩

lemma buildLoop_entries_off (e : List String → Option (List Emb)) (notes : List Note) :
    (buildLoop false e notes).index_entries = [] :=
  chunksFold_entries_off e notes ⟨[], [], 0, 0⟩

lemma ensure_pipeline_fields (s : AppState) (ok : Bool) :
    (ensure_pipeline_loaded s ok).search_index = s.search_index ∧
    (ensure_pipeline_loaded s ok).note_cache = s.note_cache ∧
    (ensure_pipeline_loaded s ok).deleted_note_ids = s.deleted_note_ids ∧
    (ensure_pipeline_loaded s ok).last_scan_timestamp = s.last_scan_timestamp ∧
    (ensure_pipeline_loaded s ok).index_status.is_ready = s.index_status.is_ready := by
  unfold ensure_pipeline_loaded
  split
  · exact ⟨rfl, rfl, rfl, rfl, rfl⟩
  · split
    · exact ⟨rfl, rfl, rfl, rfl, rfl⟩
    · exact ⟨rfl, rfl, rfl, rfl, rfl⟩

lemma fullBuildPath_last_scan (s : AppState) (env : FullEnv) (notes : List Note)
    (hdb : env.db_read_full = some notes)
    (hidx : env.index_new_ok = true) :
    (fullBuildPath s env).last_scan_timestamp = notes.foldl maxTsStep 0 := by
  unfold fullBuildPath
  rw [hdb]
  simp only [hidx, not_true_eq_false, if_false, Bool.not_true, Bool.false_eq_true,
    ite_false]
  exact buildLoop_max_ts _ env.embed notes

lemma snapshotPath_last_scan (s : AppState) (env : FullEnv)
    (loaded : List (String × Emb)) (notes : List Note) :
    (snapshotPath s env loaded notes).last_scan_timestamp =
      ((notes.map (·.updated_time)).max?).getD 0 := by
  unfold snapshotPath
  have h := (ensure_pipeline_fields
    { s with
      search_index := some loaded
      note_cache := notes.foldl cacheUpsert []
      last_scan_timestamp := ((notes.map (·.updated_time)).max?).getD 0
      deleted_note_ids := []
      last_full_rebuild_ts := env.now
      index_status :=
        { total_notes := notes.length
          indexed_notes := notes.length
          is_ready := false
          is_downloading_model := true
          download_progress := 1
          error := none } } env.pipeline_load_ok).2.2.2.1
  exact h

lemma run_full_inner_last_scan_full (s : AppState) (env : FullEnv) (p : String)
    (notes : List Note)
    (hp : s.db_path = some p)
    (hsnap : env.snapshot = none ∨ env.db_read_snapshot = none)
    (hdb : env.db_read_full = some notes)
    (hidx : env.index_new_ok = true) :
    (run_full_indexing_inner s env).last_scan_timestamp = notes.foldl maxTsStep 0 := by
  unfold run_full_indexing_inner
  rw [hp]
  rcases hsnap with h | h <;> rw [h]
  · rcases hrs : env.db_read_snapshot with _ | ns
    · exact fullBuildPath_last_scan s env notes hdb hidx
    · exact fullBuildPath_last_scan s env notes hdb hidx
  · rcases hs : env.snapshot with _ | l
    · exact fullBuildPath_last_scan s env notes hdb hidx
    · exact fullBuildPath_last_scan s env notes hdb hidx

lemma run_full_inner_last_scan_snapshot (s : AppState) (env : FullEnv) (p : String)
    (loaded : List (String × Emb)) (notes : List Note)
    (hp : s.db_path = some p)
    (hsnap : env.snapshot = some loaded)
    (hread : env.db_read_snapshot = some notes) :
    (run_full_indexing_inner s env).last_scan_timestamp =
      ((notes.map (·.updated_time)).max?).getD 0 := by
  unfold run_full_indexing_inner
  rw [hp, hsnap, hread]
  exact snapshotPath_last_scan s env loaded notes

lemma fullBuild_abort_db (s : AppState) (env : FullEnv)
    (hdb : env.db_read_full = none) :
    (fullBuildPath s env).search_index = s.search_index ∧
    (fullBuildPath s env).note_cache = s.note_cache ∧
    (fullBuildPath s env).deleted_note_ids = s.deleted_note_ids ∧
    (fullBuildPath s env).last_scan_timestamp = s.last_scan_timestamp ∧
    (fullBuildPath s env).index_status.error =
      some ("Failed to read database: " ++ env.db_err) := by
  unfold fullBuildPath
  rw [hdb]
  have h := ensure_pipeline_fields
    { s with index_status := { s.index_status with is_downloading_model := true } }
    env.pipeline_load_ok
  exact ⟨h.1, h.2.1, h.2.2.1, h.2.2.2.1, rfl⟩

lemma fullBuild_abort_idx (s : AppState) (env : FullEnv) (notes : List Note)
    (hdb : env.db_read_full = some notes)
    (hidx : env.index_new_ok = false) :
    (fullBuildPath s env).search_index = s.search_index ∧
    (fullBuildPath s env).note_cache = s.note_cache ∧
    (fullBuildPath s env).deleted_note_ids = s.deleted_note_ids ∧
    (fullBuildPath s env).last_scan_timestamp = s.last_scan_timestamp ∧
    (fullBuildPath s env).index_status.error =
      some ("Failed to create index: " ++ env.idx_err) := by
  unfold fullBuildPath
  rw [hdb]
  simp only [hidx, Bool.not_false, if_true, Bool.false_eq_true, not_false_eq_true,
    ite_true]
  have h := ensure_pipeline_fields
    { s with index_status := { s.index_status with is_downloading_model := true } }
    env.pipeline_load_ok
  exact ⟨h.1, h.2.1, h.2.2.1, h.2.2.2.1, by trivial⟩

lemma ensure_pipeline_fail (s : AppState)
    (h1 : s.pipeline_loaded = false) (h2 : s.is_pipeline_loading = false) :
    ensure_pipeline_loaded s false =
      { s with
        index_status :=
          { s.index_status with error := some "Failed to load embedding model" } } := by
  unfold ensure_pipeline_loaded
  rw [h1, h2]
  simp

lemma fullBuild_pipeline_fail (s : AppState) (env : FullEnv) (notes : List Note)
    (hdb : env.db_read_full = some notes)
    (hidx : env.index_new_ok = true)
    (hpf : s.pipeline_loaded = false)
    (hld : s.is_pipeline_loading = false)
    (hplo : env.pipeline_load_ok = false) :
    (fullBuildPath s env).search_index = some [] ∧
    (fullBuildPath s env).note_cache = notes.foldl cacheUpsert [] ∧
    (fullBuildPath s env).deleted_note_ids = [] ∧
    (fullBuildPath s env).last_scan_timestamp = notes.foldl maxTsStep 0 ∧
    (fullBuildPath s env).index_status.error = none ∧
    (fullBuildPath s env).index_status.is_ready = s.index_status.is_ready ∧
    (fullBuildPath s env).pipeline_loaded = false := by
  unfold fullBuildPath
  rw [hdb, hplo]
  simp only [ensure_pipeline_fail, hpf, hld, hidx, not_true_eq_false, if_false,
    Bool.not_true, Bool.false_eq_true, ite_false]
  split
  · exact ⟨congrArg some (buildLoop_entries_off env.embed notes),
      buildLoop_cache _ env.embed notes, by trivial,
      buildLoop_max_ts _ env.embed notes, by trivial, by trivial, by trivial⟩
  · exact ⟨congrArg some (buildLoop_entries_off env.embed notes),
      buildLoop_cache _ env.embed notes, by trivial,
      buildLoop_max_ts _ env.embed notes, by trivial, by trivial, by trivial⟩

lemma run_full_inner_fallthrough (s : AppState) (env : FullEnv) (p : String)
    (hp : s.db_path = some p)
    (hsnap : env.snapshot = none ∨ env.db_read_snapshot = none) :
    run_full_indexing_inner s env = fullBuildPath s env := by
  unfold run_full_indexing_inner
  rw [hp]
  rcases hsnap with h | h <;> rw [h] <;>
    rcases hrs : env.db_read_snapshot with _ | ns <;>
    rcases hs : env.snapshot with _ | l <;> rfl

lemma watchStep_no_change (st : WState) (tk : WTick) (c : Int)
    (hp : st.pending = none)
    (hl : st.last = none ∨ st.last = some c)
    (htk : combinedMtime tk = none ∨ combinedMtime tk = some c ∨
      tk.dbConfigured = false) :
    (watchStep st tk).2 = false ∧ ((watchStep st tk).1).pending = none ∧
      (((watchStep st tk).1).last = none ∨ ((watchStep st tk).1).last = some c) := by
  by_cases hcfg : tk.dbConfigured = false
  · simp [watchStep, hcfg, hp, hl]
  · rw [Bool.not_eq_false] at hcfg
    rcases htk with hmt | hmt | hmt
    · unfold watchStep watchChanged
      rcases hlast : st.last with _ | v <;>
        simp [hcfg, hmt, hp, hlast] <;> simp [hlast] at hl <;> simp [hl]
    · unfold watchStep watchChanged
      rcases hl with hl | hl <;>
        simp [hcfg, hmt, hp, hl]
    · rw [hmt] at hcfg
      cases hcfg

lemma watchStep_fire (st : WState) (tk : WTick)
    (h : (watchStep st tk).2 = true) :
    (watchChanged st tk).1 = false ∧
    (∃ since, st.pending = some since ∧ DEBOUNCE_MS ≤ tk.now - since) ∧
    ((watchStep st tk).1).pending = none := by
  unfold watchStep at h ⊢
  by_cases hcfg : tk.dbConfigured = false
  · simp [hcfg] at h
  · rw [Bool.not_eq_false] at hcfg
    simp only [hcfg, Bool.not_true, Bool.false_eq_true, if_false, not_true_eq_false,
      ite_false] at h ⊢
    rcases hwc : watchChanged st tk with ⟨chg, l1⟩
    rw [hwc] at h
    cases chg with
    | true =>
      exfalso
      simp [DEBOUNCE_MS] at h
    | false =>
      rcases hpend : st.pending with _ | since
      · rw [hpend] at h
        simp at h
      · rw [hpend] at h
        simp only [Bool.false_eq_true, if_false, ite_false] at h ⊢
        split at h
        · next hd =>
          have hd2 : DEBOUNCE_MS ≤ tk.now - since := by
            rcases max_cases (tk.now - since) (0 : Int) with ⟨hm, _⟩ | ⟨hm, _⟩ <;>
              rw [hm] at hd
            · exact hd
            · exact absurd hd (by rw [DEBOUNCE_MS]; omega)
          refine ⟨by simp, ⟨since, rfl, hd2⟩, ?_⟩
          simp [hd]
        · cases h

lemma watchStep_idle_no_fire (st : WState) (tk : WTick)
    (hp : st.pending = none) (hch : (watchChanged st tk).1 = false) :
    (watchStep st tk).2 = false := by
  unfold watchStep
  by_cases hcfg : tk.dbConfigured = false
  · simp [hcfg]
  · rw [Bool.not_eq_false] at hcfg
    rcases hwc : watchChanged st tk with ⟨chg, l1⟩
    rw [hwc] at hch
    simp at hch
    simp [hcfg, hch, hp]

lemma watchChanged_init (tk : WTick) : (watchChanged initWState tk).1 = false := by
  unfold watchChanged initWState
  rcases hm : combinedMtime tk with _ | t <;> simp

lemma watchRun_no_change (c : Int) :
    ∀ (ticks : List WTick) (st : WState),
      st.pending = none → (st.last = none ∨ st.last = some c) →
      (∀ tk ∈ ticks, combinedMtime tk = none ∨ combinedMtime tk = some c ∨
        tk.dbConfigured = false) →
      ∀ b ∈ (watchRun st ticks).2, b = false := by
  intro ticks
  induction ticks with
  | nil =>
    intro st hp hl hall b hb
    simp [watchRun] at hb
  | cons tk ticks ih =>
    intro st hp hl hall b hb
    obtain ⟨hf, hp2, hl2⟩ := watchStep_no_change st tk c hp hl
      (hall tk (List.mem_cons_self tk ticks))
    rw [watchRun] at hb
    rcases hstep : watchStep st tk with ⟨st1, f⟩
    rw [hstep] at hb hf hp2 hl2
    simp at hb hf hp2 hl2
    rcases hb with hb | hb
    · rw [hb, hf]
    · exact ih st1 hp2 hl2 (fun t ht => hall t (List.mem_cons_of_mem tk ht)) b hb

lemma l2norm_nonneg (v : List ℝ) : 0 ≤ l2norm v := Real.sqrt_nonneg _

lemma sumsq_nonneg (v : List ℝ) : 0 ≤ (v.map (fun x => x * x)).sum := by
  apply List.sum_nonneg
  intro x hx
  rcases List.mem_map.mp hx with ⟨y, _, rfl⟩
  exact mul_self_nonneg y

lemma l2norm_map_div (v : List ℝ) (hn : 0 < l2norm v) :
    l2norm (v.map (fun x => x / l2norm v)) = 1 := by
  set n := l2norm v with hdef
  have hne : n ≠ 0 := ne_of_gt hn
  have h1 : (v.map (fun x => x / n)).map (fun x => x * x)
      = v.map (fun x => (x * x) * (n * n)⁻¹) := by
    rw [List.map_map]
    apply List.map_congr_left
    intro x _
    field_simp
  have h2 : (v.map (fun x => (x * x) * (n * n)⁻¹)).sum
      = (v.map (fun x => x * x)).sum * (n * n)⁻¹ := by
    rw [← List.sum_map_mul_right]
  unfold l2norm
  rw [h1, h2, Real.sqrt_mul (sumsq_nonneg v), Real.sqrt_inv]
  have h3 : Real.sqrt (n * n) = n := Real.sqrt_mul_self (le_of_lt hn)
  rw [h3]
  have h4 : Real.sqrt ((v.map (fun x => x * x)).sum) = n := rfl
  rw [h4]
  field_simp

lemma l2norm_pos_exists (v : List ℝ) (h : 0 < l2norm v) : ∃ x ∈ v, x ≠ 0 := by
  by_contra hno
  push_neg at hno
  have hz : (v.map (fun x => x * x)).sum = 0 := by
    apply List.sum_eq_zero
    intro x hx
    rcases List.mem_map.mp hx with ⟨y, hy, rfl⟩
    rw [hno y hy]
    ring
  rw [l2norm, hz, Real.sqrt_zero] at h
  exact lt_irrefl 0 h

/-!
Claim theorems.
-/

/-- C9: is_valid_joplin_id accepts a string exactly when it consists of 32
characters, each a lowercase hexadecimal digit (0-9 or a-f); every other
string is rejected, and open_in_joplin refuses a rejected id with the
invalid-id condition. -/
theorem claim_C9 :
    (∀ s : String, is_valid_joplin_id s = true ↔
      (s.length = 32 ∧ ∀ c ∈ s.data, isHexChar c)) ∧
    (∀ (s : String) (openResult : Except String Unit),
      is_valid_joplin_id s = false →
        open_in_joplin s openResult = Except.error "invalid_note_id") := by
  constructor
  · intro s
    simp only [is_valid_joplin_id, utf8Bytes, Bool.and_eq_true, beq_iff_eq,
      String.length]
    constructor
    · intro h
      rcases h with ⟨hlen, hall⟩
      have hhex := (flatMap_hex_iff s.data).1 hall
      exact ⟨by rw [← flatMap_hex_len s.data hhex]; exact hlen, hhex⟩
    · intro h
      rcases h with ⟨hlen, hhex⟩
      exact ⟨by rw [flatMap_hex_len s.data hhex]; exact hlen,
        (flatMap_hex_iff s.data).2 hhex⟩
  · intro s openResult h
    simp [open_in_joplin, h]

/-- Witness for C9 at concrete inputs: a canonical 32-char lowercase hex id is
accepted, and open_in_joplin rejects a malformed id. -/
theorem claim_C9_witness :
    is_valid_joplin_id "0123456789abcdef0123456789abcdef" = true ∧
    open_in_joplin "not-a-valid-id!" (Except.ok ()) = Except.error "invalid_note_id" := by
  constructor
  · exact (claim_C9.1 "0123456789abcdef0123456789abcdef").2 ⟨by decide, by decide⟩
  · exact claim_C9.2 "not-a-valid-id!" (Except.ok ()) (by decide)

/-- C7: a search_notes call made while index_status.is_ready is false returns
the not-ready error, performs no embedding inference and no index search, and
leaves all shared state unchanged. -/
theorem claim_C7 (s : AppState) (env : SearchEnv)
    (h : s.index_status.is_ready = false) :
    search_notes s env = ⟨Except.error "index_not_ready", s, 0, 0⟩ := by
  simp [search_notes, h]

/-- Witness for C7: the default (not ready) state at a concrete environment. -/
theorem claim_C7_witness :
    search_notes defaultAppState ⟨Except.ok [], Except.ok []⟩ =
      ⟨Except.error "index_not_ready", defaultAppState, 0, 0⟩ :=
  claim_C7 defaultAppState ⟨Except.ok [], Except.ok []⟩ rfl

/-- C5: a run_full_indexing call made while is_indexing is true, and a
run_delta_update call made while is_delta_updating or is_indexing is true,
return immediately with all shared state unchanged (the guard flags are
checked and set in one critical section of the coordinator lock; their
mutual-exclusion effect under interleaving rests on that lock). -/
theorem claim_C5 :
    (∀ (s : AppState) (env : FullEnv), s.is_indexing = true →
      run_full_indexing s env = s) ∧
    (∀ (s : AppState) (env : DeltaEnv),
      (s.is_delta_updating || s.is_indexing) = true →
      run_delta_update s env = s) := by
  constructor
  · intro s env h
    simp [run_full_indexing, h]
  · intro s env h
    simp only [run_delta_update, h, if_pos]

/-- Witness for C5: concrete losing calls while the flags are set. -/
theorem claim_C5_witness :
    run_full_indexing { defaultAppState with is_indexing := true }
      ⟨none, none, true, "", none, true, "", fun _ => none, 0⟩ =
      { defaultAppState with is_indexing := true } ∧
    run_delta_update { defaultAppState with is_delta_updating := true }
      ⟨true, Except.ok true, [], [], fun _ => none, 0⟩ =
      { defaultAppState with is_delta_updating := true } := by
  constructor
  · exact claim_C5.1 { defaultAppState with is_indexing := true }
      ⟨none, none, true, "", none, true, "", fun _ => none, 0⟩ rfl
  · exact claim_C5.2 { defaultAppState with is_delta_updating := true }
      ⟨true, Except.ok true, [], [], fun _ => none, 0⟩ rfl

/-- C3 (code bug evidence): with eleven distinct cached, non-tombstoned,
well-scored hits, search_notes returns all eleven results — the code never
truncates to 10, although its own doc comment and the spec promise at most
10 (index.rs requests DEFAULT_TOP_K = 25 candidates and commands.rs lines
66-83 only filter and deduplicate). -/
theorem claim_C3 :
    resultCount (search_notes elevenState ⟨Except.ok [], Except.ok elevenHits⟩) = 11 ∧
    10 < resultCount (search_notes elevenState ⟨Except.ok [], Except.ok elevenHits⟩) := by
  constructor
  · decide
  · decide

/-- C1: once a delta update has tombstoned note id X (X reported deleted and
not re-reported as changed), a subsequent successful search never returns a
result with note id X, whatever hits the vector index produces — including
hits that still carry id X. -/
theorem claim_C1 (s : AppState) (denv : DeltaEnv) (senv : SearchEnv) (X : String)
    (rs : List SearchResult)
    (hwf : WfCache s.note_cache)
    (hdb : denv.db_open_ok = true)
    (hch : denv.has_changes = Except.ok true)
    (hX : X ∈ denv.deleted_ids)
    (hXc : ¬ X ∈ denv.changed.map (·.id))
    (hres : (search_notes (run_delta_update_inner s denv) senv).result = Except.ok rs) :
    ∀ r ∈ rs, r.note.id ≠ X := by
  obtain ⟨hdel, hwf2⟩ := run_delta_state s denv X hdb hch hX hXc hwf
  obtain ⟨hits, hsr, hrs⟩ := search_notes_ok hres
  intro r hr heq
  rw [hrs] at hr
  obtain ⟨hit, hhits, htomb, hlook⟩ := mem_searchPostprocess hr
  have hid : r.note.id = hit.note_id := lookupA_wf hwf2 hlook
  exact htomb (by rw [← hid, heq]; exact hdel)


/-- Witness for C1: a concrete delta pass tombstoning "b" followed by a search
whose hits still include "b"; the sole result is note "a". -/
theorem claim_C1_witness :
    (search_notes (run_delta_update_inner c1state c1denv) c1senv).result =
      Except.ok [⟨⟨"a", "ta", 1⟩, mkRat 9 10⟩] ∧
    (⟨⟨"a", "ta", 1⟩, mkRat 9 10⟩ : SearchResult).note.id ≠ "b" := by
  have hres : (search_notes (run_delta_update_inner c1state c1denv) c1senv).result =
      Except.ok [⟨⟨"a", "ta", 1⟩, mkRat 9 10⟩] := by decide
  refine ⟨hres, ?_⟩
  exact claim_C1 c1state c1denv c1senv "b" _ (by decide) rfl rfl (by decide)
    (by decide) hres _ (List.mem_singleton.mpr rfl)

/-- C6 (amended): provided the embedding pipeline is loaded and the batch
embedding succeeds, a delta update removes every changed note's id from the
tombstone set and upserts its metadata into note_cache (changed ids are
distinct, being primary keys).  Without a loaded pipeline or with a failed
batch the whole step-4 block, including this loop, is skipped — see the
counterexample. -/
theorem claim_C6 (s : AppState) (env : DeltaEnv)
    (hdb : env.db_open_ok = true)
    (hch : env.has_changes = Except.ok true)
    (hpl : s.pipeline_loaded = true)
    (hemb : (env.embed (env.changed.map noteText)).isSome = true)
    (hnd : (env.changed.map (·.id)).Nodup) :
    ∀ n ∈ env.changed,
      ¬ n.id ∈ (run_delta_update_inner s env).deleted_note_ids ∧
        lookupA (run_delta_update_inner s env).note_cache n.id = some (metaOf n) := by
  intro n hn
  have hplt : (deltaTombstones s env).pipeline_loaded = true := by
    rw [deltaTombstones, pipeline_foldl_tombstone, hpl]
  have hne : env.changed.isEmpty = false := by
    cases hc : env.changed with
    | nil => rw [hc] at hn; cases hn
    | cons a l => rfl
  obtain ⟨embs, hembs⟩ := Option.isSome_iff_exists.mp hemb
  simp only [run_delta_update_inner, hdb, hch, hne, hembs, hplt, Bool.not_true,
    Bool.false_eq_true, if_false, not_false_eq_true, not_true_eq_false, ite_false]
  exact foldl_upsert_spec _ _ hnd n hn

end JoplinSmartSearch

namespace JoplinSmartSearch

/-- Counterexample to C6 as stated: with "x" tombstoned and the embedding
pipeline not loaded, a delta update whose changed set reports "x" leaves "x"
tombstoned and absent from the cache. -/
theorem claim_C6_counterexample :
    "x" ∈ (run_delta_update_inner c6cstate c6env).deleted_note_ids ∧
    lookupA (run_delta_update_inner c6cstate c6env).note_cache "x" = none := by
  decide

/-- Witness for C6 at a concrete input with the pipeline loaded. -/
theorem claim_C6_witness :
    ¬ "x" ∈ (run_delta_update_inner c6wstate c6env).deleted_note_ids ∧
    lookupA (run_delta_update_inner c6wstate c6env).note_cache "x" =
      some ⟨"x", "t", 10⟩ :=
  claim_C6 c6wstate c6env rfl rfl rfl (by decide) (by decide)
    ⟨"x", "t", "b", 10⟩ (List.mem_singleton.mpr rfl)


/-- C4 (amended): last_scan_timestamp never decreases across delta updates,
and a successful delta pass sets it to max(previous, max updated_time of the
changed notes minus 1 ms); a full rebuild instead sets it to exactly the
maximum updated_time of the notes read (0 when none) — with no 1 ms
subtraction and no lower bound by the previous value — on both the fresh-build
and the snapshot-load paths. -/
theorem claim_C4 :
    (∀ (s : AppState) (env : DeltaEnv),
      s.last_scan_timestamp ≤ (run_delta_update s env).last_scan_timestamp) ∧
    (∀ (s : AppState) (env : DeltaEnv),
      env.db_open_ok = true → env.has_changes = Except.ok true →
      env.changed.isEmpty = false → s.pipeline_loaded = true →
      (env.embed (env.changed.map noteText)).isSome = true →
      (run_delta_update_inner s env).last_scan_timestamp =
        max s.last_scan_timestamp
          ((((env.changed.map (·.updated_time)).max?).getD 0) - 1)) ∧
    (∀ (s : AppState) (env : FullEnv) (p : String) (notes : List Note),
      s.db_path = some p → (env.snapshot = none ∨ env.db_read_snapshot = none) →
      env.db_read_full = some notes → env.index_new_ok = true →
      (run_full_indexing_inner s env).last_scan_timestamp =
        notes.foldl maxTsStep 0) ∧
    (∀ (s : AppState) (env : FullEnv) (p : String) (loaded : List (String × Emb))
        (notes : List Note),
      s.db_path = some p → env.snapshot = some loaded →
      env.db_read_snapshot = some notes →
      (run_full_indexing_inner s env).last_scan_timestamp =
        ((notes.map (·.updated_time)).max?).getD 0) :=
  ⟨run_delta_mono,
   fun s env hdb hch hne hpl hemb =>
     run_delta_inner_last_scan_eq s env hdb hch hne hpl hemb,
   run_full_inner_last_scan_full,
   run_full_inner_last_scan_snapshot⟩

/-- Counterexample to C4 as stated: a full rebuild that reads one note with
updated_time 100 sets last_scan_timestamp to exactly 100, violating the
claimed bound of the maximum updated_time minus one time unit (99). -/
theorem claim_C4_counterexample :
    (run_full_indexing_inner c4state c4env).last_scan_timestamp = 100 ∧
    ¬ ((run_full_indexing_inner c4state c4env).last_scan_timestamp ≤ 100 - 1) := by
  have h := run_full_inner_last_scan_full c4state c4env "db" [⟨"n", "t", "b", 100⟩]
    rfl (Or.inl rfl) rfl rfl
  rw [h]
  constructor <;> decide

/-- Witness for C4 at concrete inputs: a delta pass over a note with
updated_time 10 moves the boundary to 9; the full rebuild of the
counterexample environment lands on exactly 100. -/
theorem claim_C4_witness :
    (run_delta_update_inner c6wstate c6env).last_scan_timestamp = 9 ∧
    (run_full_indexing_inner c4state c4env).last_scan_timestamp = 100 := by
  constructor
  · have h := claim_C4.2.1 c6wstate c6env rfl rfl rfl rfl (by decide)
    rw [h]
    decide
  · have h := claim_C4.2.2.1 c4state c4env "db" [⟨"n", "t", "b", 100⟩]
      rfl (Or.inl rfl) rfl rfl
    rw [h]
    decide


/-- C2 (amended): a full rebuild whose database read fails, or whose index
creation fails, aborts with the corresponding error recorded and leaves
search_index, note_cache, deleted_note_ids and last_scan_timestamp unchanged;
but a rebuild whose embedding-model load fails does not abort — it proceeds,
swaps in an index with no entries, rebuilds the cache, clears the tombstones
and the recorded error, resets last_scan_timestamp from the notes read, and
leaves is_ready unchanged (never newly set). -/
theorem claim_C2 :
    (∀ (s : AppState) (env : FullEnv) (p : String),
      s.db_path = some p → (env.snapshot = none ∨ env.db_read_snapshot = none) →
      env.db_read_full = none →
      (run_full_indexing_inner s env).search_index = s.search_index ∧
      (run_full_indexing_inner s env).note_cache = s.note_cache ∧
      (run_full_indexing_inner s env).deleted_note_ids = s.deleted_note_ids ∧
      (run_full_indexing_inner s env).last_scan_timestamp = s.last_scan_timestamp ∧
      (run_full_indexing_inner s env).index_status.error =
        some ("Failed to read database: " ++ env.db_err)) ∧
    (∀ (s : AppState) (env : FullEnv) (p : String) (notes : List Note),
      s.db_path = some p → (env.snapshot = none ∨ env.db_read_snapshot = none) →
      env.db_read_full = some notes → env.index_new_ok = false →
      (run_full_indexing_inner s env).search_index = s.search_index ∧
      (run_full_indexing_inner s env).note_cache = s.note_cache ∧
      (run_full_indexing_inner s env).deleted_note_ids = s.deleted_note_ids ∧
      (run_full_indexing_inner s env).last_scan_timestamp = s.last_scan_timestamp ∧
      (run_full_indexing_inner s env).index_status.error =
        some ("Failed to create index: " ++ env.idx_err)) ∧
    (∀ (s : AppState) (env : FullEnv) (p : String) (notes : List Note),
      s.db_path = some p → (env.snapshot = none ∨ env.db_read_snapshot = none) →
      env.db_read_full = some notes → env.index_new_ok = true →
      s.pipeline_loaded = false → s.is_pipeline_loading = false →
      env.pipeline_load_ok = false →
      (run_full_indexing_inner s env).search_index = some [] ∧
      (run_full_indexing_inner s env).note_cache = notes.foldl cacheUpsert [] ∧
      (run_full_indexing_inner s env).deleted_note_ids = [] ∧
      (run_full_indexing_inner s env).last_scan_timestamp =
        notes.foldl maxTsStep 0 ∧
      (run_full_indexing_inner s env).index_status.error = none ∧
      (run_full_indexing_inner s env).index_status.is_ready =
        s.index_status.is_ready ∧
      (run_full_indexing_inner s env).pipeline_loaded = false) := by
  refine ⟨?_, ?_, ?_⟩
  · intro s env p hp hsnap hdb
    rw [run_full_inner_fallthrough s env p hp hsnap]
    exact fullBuild_abort_db s env hdb
  · intro s env p notes hp hsnap hdb hidx
    rw [run_full_inner_fallthrough s env p hp hsnap]
    exact fullBuild_abort_idx s env notes hdb hidx
  · intro s env p notes hp hsnap hdb hidx hpf hld hplo
    rw [run_full_inner_fallthrough s env p hp hsnap]
    exact fullBuild_pipeline_fail s env notes hdb hidx hpf hld hplo

/-- Counterexample to C2 as stated: on a state with a working prior index,
a rebuild whose embedding-model load fails (database read fine) replaces the
prior index with an empty one, clears the tombstones and records no error. -/
theorem claim_C2_counterexample :
    (run_full_indexing_inner c2state c2env).search_index = some [] ∧
    c2state.search_index = some [("aaaa", [mkRat 1 1])] ∧
    (run_full_indexing_inner c2state c2env).deleted_note_ids = [] ∧
    c2state.deleted_note_ids = ["dddd"] ∧
    (run_full_indexing_inner c2state c2env).index_status.error = none := by
  have heq := run_full_inner_fallthrough c2state c2env "db" rfl (Or.inl rfl)
  have h := fullBuild_pipeline_fail c2state c2env [⟨"n", "t", "b", 100⟩]
    rfl rfl rfl rfl rfl
  rw [heq]
  exact ⟨h.1, rfl, h.2.2.1, rfl, h.2.2.2.2.1⟩

/-- Witness for C2 at a concrete input: a failed database read aborts the
rebuild, preserves all four state fields and records the error. -/
theorem claim_C2_witness :
    (run_full_indexing_inner c2state c2wenv).search_index =
      some [("aaaa", [mkRat 1 1])] ∧
    (run_full_indexing_inner c2state c2wenv).note_cache =
      [("aaaa", ⟨"aaaa", "t", 50⟩)] ∧
    (run_full_indexing_inner c2state c2wenv).deleted_note_ids = ["dddd"] ∧
    (run_full_indexing_inner c2state c2wenv).last_scan_timestamp = 999 ∧
    (run_full_indexing_inner c2state c2wenv).index_status.error =
      some "Failed to read database: boom" := by
  have h := claim_C2.1 c2state c2wenv "db" rfl (Or.inl rfl) rfl
  exact ⟨h.1, h.2.1, h.2.2.1, h.2.2.2.1, h.2.2.2.2⟩

/-- C8: (1) from a cold start, a trace whose observed modification time never
differs from one constant (or is absent, or has no db configured) never fires
a delta update — in particular the very first observed mtime never triggers;
(2) a tick that fires observed no change on that tick and had a pending
debounce at least DEBOUNCE (5 s) old; (3) after firing, the watcher returns to
idle (pending cleared); (4) an idle watcher observing no change never fires;
(5) the very first tick can never fire. -/
theorem claim_C8 :
    (∀ (ticks : List WTick) (c : Int),
      (∀ tk ∈ ticks, combinedMtime tk = none ∨ combinedMtime tk = some c ∨
        tk.dbConfigured = false) →
      ∀ b ∈ (watchRun initWState ticks).2, b = false) ∧
    (∀ (st : WState) (tk : WTick), (watchStep st tk).2 = true →
      (watchChanged st tk).1 = false ∧
      ∃ since, st.pending = some since ∧ DEBOUNCE_MS ≤ tk.now - since) ∧
    (∀ (st : WState) (tk : WTick), (watchStep st tk).2 = true →
      ((watchStep st tk).1).pending = none) ∧
    (∀ (st : WState) (tk : WTick), st.pending = none →
      (watchChanged st tk).1 = false → (watchStep st tk).2 = false) ∧
    (∀ tk : WTick, (watchStep initWState tk).2 = false) := by
  refine ⟨?_, ?_, ?_, ?_, ?_⟩
  · intro ticks c hall
    exact watchRun_no_change c ticks initWState rfl (Or.inl rfl) hall
  · intro st tk h
    obtain ⟨h1, h2, _⟩ := watchStep_fire st tk h
    exact ⟨h1, h2⟩
  · intro st tk h
    exact (watchStep_fire st tk h).2.2
  · exact watchStep_idle_no_fire
  · intro tk
    exact watchStep_idle_no_fire initWState tk rfl (watchChanged_init tk)

/-- Witness for C8 at concrete ticks: a cold-start trace with a constant
mtime never fires, and a tick with a 10 s old pending debounce fires and
resets to idle. -/
theorem claim_C8_witness :
    ((watchRun initWState
      [⟨0, true, some 5, none⟩, ⟨10000, true, some 5, some 3⟩]).2.contains true
        = false) ∧
    (watchStep ⟨some 5, some 20000⟩ ⟨30000, true, some 5, none⟩).2 = true ∧
    DEBOUNCE_MS ≤ (30000 : Int) - 20000 ∧
    ((watchStep ⟨some 5, some 20000⟩ ⟨30000, true, some 5, none⟩).1).pending = none := by
  refine ⟨?_, ?_, ?_, ?_⟩
  · have h := claim_C8.1 [⟨0, true, some 5, none⟩, ⟨10000, true, some 5, some 3⟩] 5
      (by decide)
    rcases hrun : (watchRun initWState
      [⟨0, true, some 5, none⟩, ⟨10000, true, some 5, some 3⟩]).2 with _ | ⟨b, bs⟩
    · rfl
    · rw [hrun] at h
      have hb := h b (List.mem_cons_self b bs)
      rcases hbs : bs with _ | ⟨b2, bs2⟩
      · simp [hb]
      · rw [hbs] at h
        have hb2 := h b2 (List.mem_cons_of_mem b (List.mem_cons_self b2 bs2))
        have : bs2 = [] := by
          have hlen : (watchRun initWState
            [⟨0, true, some 5, none⟩, ⟨10000, true, some 5, some 3⟩]).2.length = 2 := by
            decide
          rw [hrun, hbs] at hlen
          simpa using hlen
        simp [hb, hb2, this]
  · decide
  · decide
  · have h := claim_C8.2.2.1 ⟨some 5, some 20000⟩ ⟨30000, true, some 5, none⟩ (by decide)
    exact h

/-- C10: normalization returns the vector unchanged whenever its L2 norm is
at most 1e-10 (so the all-zero vector passes through and no division by zero
happens — the only division performed divides by a norm exceeding 1e-10);
above the threshold the output has norm exactly 1, and a unit-norm output can
only arise from a raw model output with a nonzero entry.  embed_one and
embed_batch are exactly normalization applied to each raw model output. -/
theorem claim_C10 :
    (∀ v : List ℝ, l2norm v ≤ 1 / 10 ^ 10 → normalize v = v) ∧
    (∀ v : List ℝ, 1 / 10 ^ 10 < l2norm v →
      normalize v = v.map (fun x => x / l2norm v) ∧ l2norm (normalize v) = 1) ∧
    (∀ v : List ℝ, l2norm (normalize v) = 1 →
      1 / 10 ^ 10 < l2norm v ∧ ∃ x ∈ v, x ≠ 0) ∧
    (∀ (raw : String → List ℝ) (texts : List String),
      embed_batch raw texts = texts.map (fun t => normalize (raw t))) ∧
    (∀ (raw : String → List ℝ) (text : String),
      embed_one raw text = normalize (raw text)) := by
  have hpos : (0 : ℝ) < 1 / 10 ^ 10 := by norm_num
  refine ⟨?_, ?_, ?_, fun raw texts => rfl, fun raw text => rfl⟩
  · intro v h
    rw [normalize, if_neg (not_lt.mpr h)]
  · intro v h
    have hmap : normalize v = v.map (fun x => x / l2norm v) := by
      rw [normalize, if_pos h]
    refine ⟨hmap, ?_⟩
    rw [hmap]
    exact l2norm_map_div v (lt_trans hpos h)
  · intro v h
    by_cases hg : 1 / 10 ^ 10 < l2norm v
    · exact ⟨hg, l2norm_pos_exists v (lt_trans hpos hg)⟩
    · exfalso
      rw [normalize, if_neg hg] at h
      rw [h] at hg
      exact hg (by norm_num)

/-- Witness for C10: the zero vector is returned unchanged, and a concrete
nonzero vector is normalized to unit length. -/
theorem claim_C10_witness :
    (l2norm [(0 : ℝ)] ≤ 1 / 10 ^ 10 ∧ normalize [(0 : ℝ)] = [0]) ∧
    (1 / 10 ^ 10 < l2norm [(3 : ℝ), 4] ∧ l2norm (normalize [(3 : ℝ), 4]) = 1) := by
  have h0 : l2norm [(0 : ℝ)] = 0 := by
    simp [l2norm]
  have h34 : l2norm [(3 : ℝ), 4] = 5 := by
    rw [l2norm]
    simp only [List.map_cons, List.map_nil, List.sum_cons, List.sum_nil]
    rw [show (3 : ℝ) * 3 + (4 * 4 + 0) = 5 ^ 2 by norm_num]
    exact Real.sqrt_sq (by norm_num)
  have hle : l2norm [(0 : ℝ)] ≤ 1 / 10 ^ 10 := by
    rw [h0]
    norm_num
  have hgt : 1 / 10 ^ 10 < l2norm [(3 : ℝ), 4] := by
    rw [h34]
    norm_num
  exact ⟨⟨hle, claim_C10.1 [(0 : ℝ)] hle⟩,
    ⟨hgt, (claim_C10.2.1 [(3 : ℝ), 4] hgt).2⟩⟩

end JoplinSmartSearch
